import Mathlib

/-!
Verification of the SwissTable control-word scanning primitive with 16-bit
control words, against its two backends: the portable per-lane loop in
src/raw/array.rs and the AVX2 vectorized implementation in src/raw/avx2.rs.
A group holds WIDTH = 16 control words; each operation derives a 16-bit
bitmask (one bit per lane) or a transformed group.
-/

/-- Control words are 16-bit unsigned values (the HashWord type, u16). -/
abbrev U16 := Fin 65536

/-- CtrlGroup of WIDTH = 16 control words, viewed lane by lane.  In array.rs this
is the array of 16 HashWord entries; in avx2.rs it is the sixteen 16-bit
lanes of the underlying 256-bit vector. -/
abbrev CtrlGroup := Fin 16 → U16

/-- Number of control words in a group. -/
def WIDTH : Nat := 16

/-- Mask of the 16 significant bits of a BitMask. -/
def BITMASK_MASK : Nat := 0xffff

/-- Control word value for an empty bucket: all bits one. -/
def EMPTY : U16 := ⟨0xffff, by decide⟩

/-- Control word value for a deleted bucket: only the high bit set. -/
def DELETED : U16 := ⟨0x8000, by decide⟩

/-- High bit of a control word; clear exactly on occupied slots. -/
def HASH_MASK_HIGH_BIT : U16 := ⟨0x8000, by decide⟩

/-- All-ones 16-bit lane pattern, as produced by a vector compare hit. -/
def U16_MAX : U16 := ⟨0xffff, by decide⟩

/-- All-zeros 16-bit lane pattern. -/
def U16_ZERO : U16 := ⟨0, by decide⟩

/-- Accumulates a bitmask over lane indexes 0 to n-1, setting bit i exactly
when p i holds; this mirrors the mask building loop pattern of the code. -/
def maskAux (p : Nat → Bool) : Nat → Nat
  | 0 => 0
  | n + 1 => maskAux p n ||| (if p n then 1 <<< n else 0)

/-- Bitmask over the 16 lanes of a group. -/
def mask16 (p : Fin 16 → Bool) : Nat :=
  maskAux (fun i => if h : i < 16 then p ⟨i, h⟩ else false) 16

/-- Modelled from the spec: the BitMask type lives outside the two backend
source files; the spec requires only its invert operation, returning the
complement restricted to the 16 significant bits, i.e. xor with
BITMASK_MASK. -/
def BitMask.invert (m : Nat) : Nat := m ^^^ BITMASK_MASK

/-- Canonical control word: one of the three classes of the data model,
namely EMPTY, DELETED, or a full word with the high bit clear. -/
abbrev canonicalWord (w : U16) : Prop := w = EMPTY ∨ w = DELETED ∨ w.val < 32768

namespace Portable

/-- Portable match_byte from array.rs: bit i of the mask is set when lane i
equals the given word. -/
def match_byte (g : CtrlGroup) (byte : U16) : Nat :=
  mask16 (fun i => byte == g i)

/-- Portable match_empty from array.rs, defined as match_byte at EMPTY. -/
def match_empty (g : CtrlGroup) : Nat :=
  match_byte g EMPTY

/-- Portable match_empty_or_deleted from array.rs: bit i of the mask is set
when lane i equals EMPTY or equals DELETED. -/
def match_empty_or_deleted (g : CtrlGroup) : Nat :=
  mask16 (fun i => g i == EMPTY || g i == DELETED)

/-- Portable match_full from array.rs: the inverted empty-or-deleted mask. -/
def match_full (g : CtrlGroup) : Nat :=
  BitMask.invert (match_empty_or_deleted g)

/-- Portable convert_special_to_empty_and_full_to_deleted from array.rs:
each word with the high bit set becomes all ones, every other word becomes
the high bit pattern. -/
def convert_special_to_empty_and_full_to_deleted (g : CtrlGroup) : CtrlGroup :=
  fun i =>
    if (g i).val &&& HASH_MASK_HIGH_BIT.val ≠ 0 then U16_MAX else HASH_MASK_HIGH_BIT

end Portable

namespace Avx2

/-- Interprets a 16-bit lane pattern as a signed 16-bit integer. -/
def toInt16 (w : U16) : Int :=
  if w.val < 32768 then (w.val : Int) else (w.val : Int) - 65536

/-- Saturating narrowing of a signed 16-bit value to a signed 8-bit lane,
returned as its unsigned 8-bit pattern; this is the per-lane behavior of the
packs instruction. -/
def satI16toU8 (x : Int) : Nat :=
  (if x < -128 then (128 : Int)
   else if 127 < x then 127
   else if x < 0 then x + 256
   else x).toNat

/-- Broadcast of one 16-bit value to all 16 lanes. -/
def set1_epi16 (x : U16) : Fin 16 → U16 := fun _ => x

/-- All-zero vector. -/
def setzero_si256 : Fin 16 → U16 := fun _ => U16_ZERO

/-- Lanewise 16-bit equality compare: all ones on a hit, zero otherwise. -/
def cmpeq_epi16 (a b : Fin 16 → U16) : Fin 16 → U16 :=
  fun i => if a i = b i then U16_MAX else U16_ZERO

/-- Lanewise signed 16-bit greater-than compare of a against b. -/
def cmpgt_epi16 (a b : Fin 16 → U16) : Fin 16 → U16 :=
  fun i => if toInt16 (b i) < toInt16 (a i) then U16_MAX else U16_ZERO

/-- Lanewise bitwise or of two vectors. -/
def or_si256 (a b : Fin 16 → U16) : Fin 16 → U16 :=
  fun i => ⟨(a i).val ||| (b i).val,
    @Nat.or_lt_two_pow (a i).val (b i).val 16 (a i).isLt (b i).isLt⟩

/-- Lower half of a 256-bit vector: 16-bit lanes 0 to 7. -/
def extracti128_lo (v : Fin 16 → U16) : Fin 8 → U16 :=
  fun i => v ⟨i.val, by have := i.isLt; omega⟩

/-- Upper half of a 256-bit vector: 16-bit lanes 8 to 15. -/
def extracti128_hi (v : Fin 16 → U16) : Fin 8 → U16 :=
  fun i => v ⟨i.val + 8, by have := i.isLt; omega⟩

/-- Saturating pack of two vectors of eight 16-bit lanes into sixteen 8-bit
lanes: bytes 0 to 7 narrow the first argument, bytes 8 to 15 narrow the
second. -/
def packs_epi16 (lo hi : Fin 8 → U16) : Fin 16 → Nat :=
  fun i =>
    if h : i.val < 8
    then satI16toU8 (toInt16 (lo ⟨i.val, h⟩))
    else satI16toU8 (toInt16 (hi ⟨i.val - 8, by have := i.isLt; omega⟩))

/-- Sign-bit extraction from sixteen 8-bit lanes into a 16-bit mask. -/
def movemask_epi8 (b : Fin 16 → Nat) : Nat :=
  mask16 (fun i => (b i).testBit 7)

/-- AVX2 match_byte from avx2.rs: lanewise compare against the broadcast
word, then narrow both halves with saturation and extract sign bits. -/
def match_byte (g : CtrlGroup) (byte : U16) : Nat :=
  movemask_epi8 (packs_epi16
    (extracti128_lo (cmpeq_epi16 g (set1_epi16 byte)))
    (extracti128_hi (cmpeq_epi16 g (set1_epi16 byte))))

/-- AVX2 match_empty from avx2.rs, defined as match_byte at EMPTY. -/
def match_empty (g : CtrlGroup) : Nat := match_byte g EMPTY

/-- AVX2 match_empty_or_deleted from avx2.rs: narrow the group itself with
saturation and extract sign bits, so bit i reflects the high bit of
lane i. -/
def match_empty_or_deleted (g : CtrlGroup) : Nat :=
  movemask_epi8 (packs_epi16 (extracti128_lo g) (extracti128_hi g))

/-- AVX2 match_full from avx2.rs: the inverted empty-or-deleted mask. -/
def match_full (g : CtrlGroup) : Nat := BitMask.invert (match_empty_or_deleted g)

/-- AVX2 convert_special_to_empty_and_full_to_deleted from avx2.rs: a signed
compare of zero against each lane yields all ones exactly on lanes with the
high bit set, and the result is or-ed with the broadcast high bit. -/
def convert_special_to_empty_and_full_to_deleted (g : CtrlGroup) : CtrlGroup :=
  or_si256 (cmpgt_epi16 setzero_si256 g) (set1_epi16 HASH_MASK_HIGH_BIT)

end Avx2

/-- Loads WIDTH control words starting at the given word address; no
alignment requirement.  Memory is modelled as u16 words indexed by word
address. -/
def CtrlGroup.load (mem : Nat → U16) (ptr : Nat) : CtrlGroup := fun i => mem (ptr + i.val)

/-- Word-granularity alignment required by the aligned operations: the AVX2
group type needs 32-byte alignment, i.e. a word address divisible by 16. -/
def GROUP_ALIGN_WORDS : Nat := 16

/-- Loads WIDTH control words from an address that must satisfy the group
alignment; the read semantics are identical to load. -/
def CtrlGroup.load_aligned (mem : Nat → U16) (ptr : Nat) : CtrlGroup := CtrlGroup.load mem ptr

/-- Stores the 16 control words of the group at the given word address,
leaving all other memory unchanged. -/
def CtrlGroup.store_aligned (g : CtrlGroup) (mem : Nat → U16) (ptr : Nat) : Nat → U16 :=
  fun a => if h : ptr ≤ a ∧ a < ptr + 16 then g ⟨a - ptr, by omega⟩ else mem a

/-- Static array backing a zero-capacity table: WIDTH words, all EMPTY. -/
def static_empty : Fin 16 → U16 := fun _ => EMPTY

namespace Portable

/-- Alignment in bytes of the portable group type, an array of 16 u16. -/
def ALIGN_OF_GROUP : Nat := 2

end Portable

namespace Avx2

/-- Alignment in bytes of the AVX2 group type, a 256-bit vector. -/
def ALIGN_OF_GROUP : Nat := 32

end Avx2

/-- Alignment in bytes of an array of u16 values. -/
def ALIGN_OF_U16_ARRAY : Nat := 2

namespace Portable

/-- Alignment of the AlignedBytes struct inside static_empty for the
portable backend: a repr C struct is aligned to the maximum alignment of
its fields, here the zero-length group array and the word array. -/
def ALIGN_OF_ALIGNED_BYTES : Nat := max ALIGN_OF_GROUP ALIGN_OF_U16_ARRAY

end Portable

namespace Avx2

/-- Alignment of the AlignedBytes struct inside static_empty for the AVX2
backend: a repr C struct is aligned to the maximum alignment of its fields,
here the zero-length group array and the word array. -/
def ALIGN_OF_ALIGNED_BYTES : Nat := max ALIGN_OF_GROUP ALIGN_OF_U16_ARRAY

end Avx2

/-- Concrete scenario group from the spec: EMPTY, DELETED, 0x0003, EMPTY,
0x7fff, DELETED, then ten EMPTY lanes. -/
def gScenario : CtrlGroup := fun i =>
  if i.val = 1 then DELETED
  else if i.val = 2 then ⟨3, by decide⟩
  else if i.val = 4 then ⟨0x7fff, by decide⟩
  else if i.val = 5 then DELETED
  else EMPTY

/-- CtrlGroup holding the non-canonical word 0x8001 in lane 0, with every other
lane zero; its lane 0 has the high bit set but is neither EMPTY nor
DELETED. -/
def gNC : CtrlGroup := fun i => if i.val = 0 then ⟨0x8001, by decide⟩ else U16_ZERO

theorem testBit_maskAux (p : Nat → Bool) (n i : Nat) :
    (maskAux p n).testBit i = (decide (i < n) && p i) := by
  induction n with
  | zero => simp [maskAux]
  | succ n ih =>
    rw [maskAux, Nat.testBit_or, ih]
    rcases Nat.lt_trichotomy i n with h | h | h
    · have h1 : i < n + 1 := by omega
      have h2 : n ≠ i := by omega
      by_cases hp : p n
      · simp [hp, h, h1, Nat.one_shiftLeft, Nat.testBit_two_pow, h2]
      · simp [hp, h, h1]
    · subst h
      by_cases hp : p i
      · simp [hp, Nat.one_shiftLeft, Nat.testBit_two_pow]
      · simp [hp]
    · have h1 : ¬ i < n := by omega
      have h2 : ¬ i < n + 1 := by omega
      have h3 : n ≠ i := by omega
      by_cases hp : p n
      · simp [hp, h1, h2, Nat.one_shiftLeft, Nat.testBit_two_pow, h3]
      · simp [hp, h1, h2]

theorem testBit_mask16 (p : Fin 16 → Bool) (j : Nat) (h : j < 16) :
    (mask16 p).testBit j = p ⟨j, h⟩ := by
  rw [mask16, testBit_maskAux]
  simp [h]

theorem testBit_mask16_ge (p : Fin 16 → Bool) (j : Nat) (h : 16 ≤ j) :
    (mask16 p).testBit j = false := by
  rw [mask16, testBit_maskAux]
  have h2 : ¬ j < 16 := by omega
  simp [h2]

theorem testBit_BITMASK (j : Nat) : BITMASK_MASK.testBit j = decide (j < 16) := by
  have he : BITMASK_MASK = 2 ^ 16 - 1 := by norm_num [BITMASK_MASK]
  rw [he, Nat.testBit_two_pow_sub_one]

theorem testBit7_eq (n : Nat) (h : n < 256) : n.testBit 7 = decide (128 ≤ n) := by
  rw [Nat.testBit_to_div_mod]
  have he : (2 : Nat) ^ 7 = 128 := by norm_num
  rw [he]
  exact decide_eq_decide.mpr (by omega)

theorem testBit15_eq (n : Nat) (h : n < 65536) : n.testBit 15 = decide (32768 ≤ n) := by
  rw [Nat.testBit_to_div_mod]
  have he : (2 : Nat) ^ 15 = 32768 := by norm_num
  rw [he]
  exact decide_eq_decide.mpr (by omega)

theorem satI16toU8_lt (x : Int) : Avx2.satI16toU8 x < 256 := by
  unfold Avx2.satI16toU8
  split_ifs <;> omega

theorem satI16toU8_high (x : Int) : 128 ≤ Avx2.satI16toU8 x ↔ x < 0 := by
  unfold Avx2.satI16toU8
  split_ifs <;> omega

theorem toInt16_neg_iff (w : U16) : Avx2.toInt16 w < 0 ↔ 32768 ≤ w.val := by
  unfold Avx2.toInt16
  have := w.isLt
  split_ifs <;> omega

theorem packs_extract (v : Fin 16 → U16) (i : Fin 16) :
    Avx2.packs_epi16 (Avx2.extracti128_lo v) (Avx2.extracti128_hi v) i
      = Avx2.satI16toU8 (Avx2.toInt16 (v i)) := by
  unfold Avx2.packs_epi16 Avx2.extracti128_lo Avx2.extracti128_hi
  by_cases h : i.val < 8
  · rw [dif_pos h]
  · rw [dif_neg h]
    have e : (⟨(⟨i.val - 8, by have := i.isLt; omega⟩ : Fin 8).val + 8,
        by have := i.isLt; omega⟩ : Fin 16) = i := by
      apply Fin.ext
      simp
      omega
    rw [e]

theorem and_high_bit (w : U16) : w.val &&& HASH_MASK_HIGH_BIT.val ≠ 0 ↔ 32768 ≤ w.val := by
  have hh : HASH_MASK_HIGH_BIT.val = 32768 := rfl
  have he : (32768 : Nat) = 2 ^ 15 := by norm_num
  rw [hh, he, Nat.and_two_pow]
  rw [testBit15_eq w.val w.isLt]
  by_cases hge : 32768 ≤ w.val
  · simp [hge]
  · simp [hge]

theorem invert_testBit (m j : Nat) (h : j < 16) :
    (BitMask.invert m).testBit j = ! m.testBit j := by
  rw [BitMask.invert, Nat.testBit_xor, testBit_BITMASK]
  simp [h]

theorem Portable.match_byte_testBit_portable (g : CtrlGroup) (b : U16) (j : Nat) (h : j < 16) :
    (Portable.match_byte g b).testBit j = decide (g ⟨j, h⟩ = b) := by
  rw [Portable.match_byte, testBit_mask16 _ j h]
  by_cases he : g ⟨j, h⟩ = b
  · simp [he]
  · simp [he, Ne.symm he]

theorem Portable.match_empty_or_deleted_testBit_portable (g : CtrlGroup) (j : Nat) (h : j < 16) :
    (Portable.match_empty_or_deleted g).testBit j
      = decide (g ⟨j, h⟩ = EMPTY ∨ g ⟨j, h⟩ = DELETED) := by
  rw [Portable.match_empty_or_deleted, testBit_mask16 _ j h]
  by_cases h1 : g ⟨j, h⟩ = EMPTY
  · simp [h1]
  · by_cases h2 : g ⟨j, h⟩ = DELETED
    · simp [h1, h2]
    · simp [h1, h2]

theorem Portable.convert_lane_portable (g : CtrlGroup) (i : Fin 16) :
    Portable.convert_special_to_empty_and_full_to_deleted g i
      = if 32768 ≤ (g i).val then EMPTY else DELETED := by
  unfold Portable.convert_special_to_empty_and_full_to_deleted
  by_cases h : 32768 ≤ (g i).val
  · rw [if_pos ((and_high_bit (g i)).mpr h), if_pos h]
    rfl
  · rw [if_neg (fun hc => h ((and_high_bit (g i)).mp hc)), if_neg h]
    rfl

theorem Avx2.match_empty_or_deleted_testBit_avx2 (g : CtrlGroup) (j : Nat) (h : j < 16) :
    (Avx2.match_empty_or_deleted g).testBit j = decide (32768 ≤ (g ⟨j, h⟩).val) := by
  rw [Avx2.match_empty_or_deleted, Avx2.movemask_epi8, testBit_mask16 _ j h, packs_extract,
    testBit7_eq _ (satI16toU8_lt _)]
  exact decide_eq_decide.mpr ((satI16toU8_high _).trans (toInt16_neg_iff _))

theorem Avx2.match_byte_testBit_avx2 (g : CtrlGroup) (b : U16) (j : Nat) (h : j < 16) :
    (Avx2.match_byte g b).testBit j = decide (g ⟨j, h⟩ = b) := by
  rw [Avx2.match_byte, Avx2.movemask_epi8, testBit_mask16 _ j h, packs_extract,
    testBit7_eq _ (satI16toU8_lt _)]
  have hv : Avx2.satI16toU8 (Avx2.toInt16 U16_MAX) = 255 := by decide
  have hz : Avx2.satI16toU8 (Avx2.toInt16 U16_ZERO) = 0 := by decide
  by_cases he : g ⟨j, h⟩ = b
  · simp [Avx2.cmpeq_epi16, Avx2.set1_epi16, he, hv]
  · simp [Avx2.cmpeq_epi16, Avx2.set1_epi16, he, hz]

theorem or_si256_val (a b : Fin 16 → U16) (i : Fin 16) :
    (Avx2.or_si256 a b i).val = (a i).val ||| (b i).val := rfl

theorem Avx2.convert_lane_avx2 (g : CtrlGroup) (i : Fin 16) :
    Avx2.convert_special_to_empty_and_full_to_deleted g i
      = if 32768 ≤ (g i).val then EMPTY else DELETED := by
  unfold Avx2.convert_special_to_empty_and_full_to_deleted
  apply Fin.ext
  rw [or_si256_val]
  unfold Avx2.cmpgt_epi16 Avx2.setzero_si256 Avx2.set1_epi16
  have hz : Avx2.toInt16 U16_ZERO = 0 := by decide
  by_cases h : 32768 ≤ (g i).val
  · have hc : Avx2.toInt16 (g i) < Avx2.toInt16 U16_ZERO := by
      rw [hz]
      exact (toInt16_neg_iff (g i)).mpr h
    rw [if_pos hc, if_pos h]
    decide
  · have hc : ¬ Avx2.toInt16 (g i) < Avx2.toInt16 U16_ZERO := by
      rw [hz]
      intro hcon
      exact h ((toInt16_neg_iff (g i)).mp hcon)
    rw [if_neg hc, if_neg h]
    decide

theorem canonical_iff (w : U16) (h : canonicalWord w) :
    (w = EMPTY ∨ w = DELETED) ↔ 32768 ≤ w.val := by
  constructor
  · rintro (rfl | rfl) <;> decide
  · intro hge
    rcases h with h | h | h
    · exact Or.inl h
    · exact Or.inr h
    · omega

/-- C1: for every 16-word input group, the portable backend and the AVX2
backend produce identical output bit patterns for match_byte with any
argument, for match_empty, and for
convert_special_to_empty_and_full_to_deleted; for match_empty_or_deleted and
match_full they produce identical output bit patterns whenever each word of
the group is a canonical control word (EMPTY, DELETED, or high bit clear).
Over the full 16-bit domain the last two operations disagree, see the
counterexample. -/
theorem C1_backend_equivalence (g : CtrlGroup) (b : U16) :
    Portable.match_byte g b = Avx2.match_byte g b
    ∧ Portable.match_empty g = Avx2.match_empty g
    ∧ Portable.convert_special_to_empty_and_full_to_deleted g
        = Avx2.convert_special_to_empty_and_full_to_deleted g
    ∧ ((∀ i, canonicalWord (g i)) →
        Portable.match_empty_or_deleted g = Avx2.match_empty_or_deleted g
        ∧ Portable.match_full g = Avx2.match_full g) := by
  have hmb : ∀ b2 : U16, Portable.match_byte g b2 = Avx2.match_byte g b2 := by
    intro b2
    apply Nat.eq_of_testBit_eq
    intro j
    rcases Nat.lt_or_ge j 16 with hj | hj
    · rw [Portable.match_byte_testBit_portable g b2 j hj, Avx2.match_byte_testBit_avx2 g b2 j hj]
    · rw [Portable.match_byte, testBit_mask16_ge _ j hj,
        Avx2.match_byte, Avx2.movemask_epi8, testBit_mask16_ge _ j hj]
  have hconv : ∀ i, Portable.convert_special_to_empty_and_full_to_deleted g i
      = Avx2.convert_special_to_empty_and_full_to_deleted g i := by
    intro i
    rw [Portable.convert_lane_portable, Avx2.convert_lane_avx2]
  have hmeod : (∀ i, canonicalWord (g i)) →
      Portable.match_empty_or_deleted g = Avx2.match_empty_or_deleted g := by
    intro hc
    apply Nat.eq_of_testBit_eq
    intro j
    rcases Nat.lt_or_ge j 16 with hj | hj
    · rw [Portable.match_empty_or_deleted_testBit_portable g j hj,
        Avx2.match_empty_or_deleted_testBit_avx2 g j hj]
      exact decide_eq_decide.mpr (canonical_iff _ (hc ⟨j, hj⟩))
    · rw [Portable.match_empty_or_deleted, testBit_mask16_ge _ j hj,
        Avx2.match_empty_or_deleted, Avx2.movemask_epi8, testBit_mask16_ge _ j hj]
  refine ⟨hmb b, hmb EMPTY, funext hconv, fun hc => ⟨hmeod hc, ?_⟩⟩
  rw [Portable.match_full, Avx2.match_full, hmeod hc]

/-- C1 counterexample: on the group whose lane 0 holds the non-canonical
word 0x8001, the portable and AVX2 backends return different
match_empty_or_deleted masks (0 versus 1), so the claimed equivalence over
every possible 16-word input fails. -/
theorem C1_counterexample :
    Portable.match_empty_or_deleted gNC ≠ Avx2.match_empty_or_deleted gNC := by
  decide

/-- C1 witness: the canonicity hypothesis of the amended equivalence is
discharged on the concrete scenario group of the spec. -/
theorem C1_witness :
    Portable.match_empty_or_deleted gScenario = Avx2.match_empty_or_deleted gScenario
    ∧ Portable.match_full gScenario = Avx2.match_full gScenario :=
  (C1_backend_equivalence gScenario EMPTY).2.2.2 (by decide)

/-- C2 counterexample: in the group whose lane 0 holds 0x8001, lane 0 has
its high bit set, yet bit 0 of the portable match_empty_or_deleted mask is
clear, refuting the claim on the portable backend over the full 16-bit
domain. -/
theorem C2_counterexample :
    ¬ ((Portable.match_empty_or_deleted gNC).testBit 0 = (gNC 0).val.testBit 15) := by
  decide

/-- C2 (amended): on the AVX2 backend, for every 16-word input group and
every lane, bit i of match_empty_or_deleted is set iff the high bit of
lane i is set and bit i of match_full is set iff that high bit is clear;
on the portable backend the same holds whenever lane i is a canonical
control word. -/
theorem C2_high_bit_semantics (g : CtrlGroup) (i : Fin 16) :
    ((Avx2.match_empty_or_deleted g).testBit i.val = (g i).val.testBit 15)
    ∧ ((Avx2.match_full g).testBit i.val = ! (g i).val.testBit 15)
    ∧ (canonicalWord (g i) →
        ((Portable.match_empty_or_deleted g).testBit i.val = (g i).val.testBit 15)
        ∧ ((Portable.match_full g).testBit i.val = ! (g i).val.testBit 15)) := by
  have hb : (g i).val.testBit 15 = decide (32768 ≤ (g i).val) :=
    testBit15_eq _ (g i).isLt
  have hA : (Avx2.match_empty_or_deleted g).testBit i.val = (g i).val.testBit 15 := by
    rw [hb, Avx2.match_empty_or_deleted_testBit_avx2 g i.val i.isLt]
  refine ⟨hA, ?_, fun hc => ?_⟩
  · rw [Avx2.match_full, invert_testBit _ i.val i.isLt, hA]
  · have hP : (Portable.match_empty_or_deleted g).testBit i.val = (g i).val.testBit 15 := by
      rw [hb, Portable.match_empty_or_deleted_testBit_portable g i.val i.isLt]
      exact decide_eq_decide.mpr (canonical_iff (g i) hc)
    exact ⟨hP, by rw [Portable.match_full, invert_testBit _ i.val i.isLt, hP]⟩

/-- C2 witness: the amended statement evaluated on the scenario group at
lane 0, whose EMPTY word is canonical. -/
theorem C2_witness :
    ((Avx2.match_empty_or_deleted gScenario).testBit 0 = (gScenario 0).val.testBit 15)
    ∧ ((Portable.match_empty_or_deleted gScenario).testBit 0
        = (gScenario 0).val.testBit 15) :=
  ⟨(C2_high_bit_semantics gScenario 0).1,
   ((C2_high_bit_semantics gScenario 0).2.2 (by decide)).1⟩

/-- C3: on both backends, convert_special_to_empty_and_full_to_deleted maps
each EMPTY lane to EMPTY, each DELETED lane to EMPTY, and each full lane
(high bit 0, any low 15 bits) to exactly DELETED. -/
theorem C3_convert_classes (g : CtrlGroup) (i : Fin 16) :
    (g i = EMPTY →
      Portable.convert_special_to_empty_and_full_to_deleted g i = EMPTY
      ∧ Avx2.convert_special_to_empty_and_full_to_deleted g i = EMPTY)
    ∧ (g i = DELETED →
      Portable.convert_special_to_empty_and_full_to_deleted g i = EMPTY
      ∧ Avx2.convert_special_to_empty_and_full_to_deleted g i = EMPTY)
    ∧ ((g i).val < 32768 →
      Portable.convert_special_to_empty_and_full_to_deleted g i = DELETED
      ∧ Avx2.convert_special_to_empty_and_full_to_deleted g i = DELETED) := by
  refine ⟨fun he => ?_, fun hd => ?_, fun hlt => ?_⟩
  · have hge : 32768 ≤ (g i).val := by rw [he]; decide
    rw [Portable.convert_lane_portable, Avx2.convert_lane_avx2, if_pos hge]
    exact ⟨rfl, rfl⟩
  · have hge : 32768 ≤ (g i).val := by rw [hd]; decide
    rw [Portable.convert_lane_portable, Avx2.convert_lane_avx2, if_pos hge]
    exact ⟨rfl, rfl⟩
  · have hng : ¬ 32768 ≤ (g i).val := by omega
    rw [Portable.convert_lane_portable, Avx2.convert_lane_avx2, if_neg hng]
    exact ⟨rfl, rfl⟩

/-- C3 witness: the transform evaluated on the scenario group at an EMPTY
lane, a DELETED lane and a full lane. -/
theorem C3_witness :
    (Portable.convert_special_to_empty_and_full_to_deleted gScenario 0 = EMPTY
      ∧ Avx2.convert_special_to_empty_and_full_to_deleted gScenario 0 = EMPTY)
    ∧ (Portable.convert_special_to_empty_and_full_to_deleted gScenario 1 = EMPTY
      ∧ Avx2.convert_special_to_empty_and_full_to_deleted gScenario 1 = EMPTY)
    ∧ (Portable.convert_special_to_empty_and_full_to_deleted gScenario 2 = DELETED
      ∧ Avx2.convert_special_to_empty_and_full_to_deleted gScenario 2 = DELETED) :=
  ⟨(C3_convert_classes gScenario 0).1 (by decide),
   (C3_convert_classes gScenario 1).2.1 (by decide),
   (C3_convert_classes gScenario 2).2.2 (by decide)⟩

/-- C4: on both backends, the match_full mask and the
match_empty_or_deleted mask are exact bitwise complements over the 16
significant bits. -/
theorem C4_full_complement (g : CtrlGroup) (i : Fin 16) :
    ((Portable.match_full g).testBit i.val
        = ! (Portable.match_empty_or_deleted g).testBit i.val)
    ∧ ((Avx2.match_full g).testBit i.val
        = ! (Avx2.match_empty_or_deleted g).testBit i.val) :=
  ⟨by rw [Portable.match_full, invert_testBit _ i.val i.isLt],
   by rw [Avx2.match_full, invert_testBit _ i.val i.isLt]⟩

/-- C4 witness: the complement relation evaluated on the scenario group at
lane 0. -/
theorem C4_witness :
    ((Portable.match_full gScenario).testBit 0
        = ! (Portable.match_empty_or_deleted gScenario).testBit 0)
    ∧ ((Avx2.match_full gScenario).testBit 0
        = ! (Avx2.match_empty_or_deleted gScenario).testBit 0) :=
  C4_full_complement gScenario 0

/-- C5: on both backends, bit i of match_byte is set iff lane i of the
group equals the probe word exactly, for every 16-bit probe word. -/
theorem C5_match_byte_exact (g : CtrlGroup) (b : U16) (i : Fin 16) :
    ((Portable.match_byte g b).testBit i.val = decide (g i = b))
    ∧ ((Avx2.match_byte g b).testBit i.val = decide (g i = b)) :=
  ⟨Portable.match_byte_testBit_portable g b i.val i.isLt,
   Avx2.match_byte_testBit_avx2 g b i.val i.isLt⟩

/-- C5 witness: match_byte at probe word 3 evaluated on the scenario group
at lane 2, the lane holding 3. -/
theorem C5_witness :
    ((Portable.match_byte gScenario ⟨3, by decide⟩).testBit 2
        = decide (gScenario 2 = ⟨3, by decide⟩))
    ∧ ((Avx2.match_byte gScenario ⟨3, by decide⟩).testBit 2
        = decide (gScenario 2 = ⟨3, by decide⟩)) :=
  C5_match_byte_exact gScenario ⟨3, by decide⟩ 2

/-- C6: on both backends, every bit set in match_empty is also set in
match_empty_or_deleted, stated as the union of the two masks being the
empty-or-deleted mask. -/
theorem C6_empty_subset (g : CtrlGroup) :
    (Portable.match_empty g ||| Portable.match_empty_or_deleted g
        = Portable.match_empty_or_deleted g)
    ∧ (Avx2.match_empty g ||| Avx2.match_empty_or_deleted g
        = Avx2.match_empty_or_deleted g) := by
  constructor
  · apply Nat.eq_of_testBit_eq
    intro j
    rw [Nat.testBit_or]
    rcases Nat.lt_or_ge j 16 with hj | hj
    · rw [Portable.match_empty, Portable.match_byte_testBit_portable g EMPTY j hj,
        Portable.match_empty_or_deleted_testBit_portable g j hj]
      by_cases he : g ⟨j, hj⟩ = EMPTY
      · simp [he]
      · simp [he]
    · rw [Portable.match_empty, Portable.match_byte, testBit_mask16_ge _ j hj,
        Portable.match_empty_or_deleted, testBit_mask16_ge _ j hj]
      rfl
  · apply Nat.eq_of_testBit_eq
    intro j
    rw [Nat.testBit_or]
    rcases Nat.lt_or_ge j 16 with hj | hj
    · rw [Avx2.match_empty, Avx2.match_byte_testBit_avx2 g EMPTY j hj,
        Avx2.match_empty_or_deleted_testBit_avx2 g j hj]
      by_cases he : g ⟨j, hj⟩ = EMPTY
      · have hge : (32768 : Nat) ≤ EMPTY.val := by decide
        simp [he, hge]
      · simp [he]
    · rw [Avx2.match_empty, Avx2.match_byte, Avx2.movemask_epi8, testBit_mask16_ge _ j hj,
        Avx2.match_empty_or_deleted, Avx2.movemask_epi8, testBit_mask16_ge _ j hj]
      rfl

/-- C6 witness: the subset relation evaluated on the scenario group. -/
theorem C6_witness :
    (Portable.match_empty gScenario ||| Portable.match_empty_or_deleted gScenario
        = Portable.match_empty_or_deleted gScenario)
    ∧ (Avx2.match_empty gScenario ||| Avx2.match_empty_or_deleted gScenario
        = Avx2.match_empty_or_deleted gScenario) :=
  C6_empty_subset gScenario

/-- C7: on both backends, match_empty returns the same bitmask as
match_byte applied to EMPTY; in the source both are literally defined
that way. -/
theorem C7_match_empty_is_match_byte (g : CtrlGroup) :
    Portable.match_empty g = Portable.match_byte g EMPTY
    ∧ Avx2.match_empty g = Avx2.match_byte g EMPTY :=
  ⟨rfl, rfl⟩

/-- C7 witness: the identity evaluated on the scenario group. -/
theorem C7_witness :
    Portable.match_empty gScenario = Portable.match_byte gScenario EMPTY
    ∧ Avx2.match_empty gScenario = Avx2.match_byte gScenario EMPTY :=
  C7_match_empty_is_match_byte gScenario

/-- C8: storing a group with store_aligned to an aligned buffer of at least
WIDTH words and reloading from that address, with load or with
load_aligned, yields a group with identical per-lane values. -/
theorem C8_store_load_round_trip (g : CtrlGroup) (mem : Nat → U16) (ptr : Nat)
    (halign : ptr % GROUP_ALIGN_WORDS = 0) :
    CtrlGroup.load (CtrlGroup.store_aligned g mem ptr) ptr = g
    ∧ CtrlGroup.load_aligned (CtrlGroup.store_aligned g mem ptr) ptr = g := by
  have key : CtrlGroup.load (CtrlGroup.store_aligned g mem ptr) ptr = g := by
    funext i
    simp only [CtrlGroup.load, CtrlGroup.store_aligned]
    have hcond : ptr ≤ ptr + i.val ∧ ptr + i.val < ptr + 16 := by
      have := i.isLt
      omega
    rw [dif_pos hcond]
    congr 1
    apply Fin.ext
    simp
  exact ⟨key, key⟩

/-- C8 witness: the round trip evaluated for the scenario group stored at
address 0 of an all-zero memory, address 0 being group aligned. -/
theorem C8_witness :
    CtrlGroup.load (CtrlGroup.store_aligned gScenario (fun _ => U16_ZERO) 0) 0 = gScenario
    ∧ CtrlGroup.load_aligned (CtrlGroup.store_aligned gScenario (fun _ => U16_ZERO) 0) 0
        = gScenario :=
  C8_store_load_round_trip gScenario (fun _ => U16_ZERO) 0 (by decide)

/-- C9: static_empty holds exactly WIDTH = 16 control words, each equal to
EMPTY, and on either backend the alignment of the repr C struct that backs
it is a multiple of the group alignment required by load_aligned. -/
theorem C9_static_empty_contract :
    (List.ofFn static_empty).length = WIDTH
    ∧ (∀ i : Fin 16, static_empty i = EMPTY)
    ∧ Portable.ALIGN_OF_GROUP ∣ Portable.ALIGN_OF_ALIGNED_BYTES
    ∧ Avx2.ALIGN_OF_GROUP ∣ Avx2.ALIGN_OF_ALIGNED_BYTES :=
  ⟨by decide, fun _ => rfl, ⟨1, by decide⟩, ⟨1, by decide⟩⟩

/-- C10: on both backends, every lane of the transformed group is exactly
EMPTY or exactly DELETED, and every input lane with the high bit set,
canonical or not, maps to EMPTY. -/
theorem C10_convert_range (g : CtrlGroup) (i : Fin 16) :
    (Portable.convert_special_to_empty_and_full_to_deleted g i = EMPTY
      ∨ Portable.convert_special_to_empty_and_full_to_deleted g i = DELETED)
    ∧ (Avx2.convert_special_to_empty_and_full_to_deleted g i = EMPTY
      ∨ Avx2.convert_special_to_empty_and_full_to_deleted g i = DELETED)
    ∧ ((g i).val.testBit 15 = true →
        Portable.convert_special_to_empty_and_full_to_deleted g i = EMPTY
        ∧ Avx2.convert_special_to_empty_and_full_to_deleted g i = EMPTY) := by
  rw [Portable.convert_lane_portable, Avx2.convert_lane_avx2]
  by_cases h : 32768 ≤ (g i).val
  · rw [if_pos h]
    exact ⟨Or.inl rfl, Or.inl rfl, fun _ => ⟨rfl, rfl⟩⟩
  · rw [if_neg h]
    refine ⟨Or.inr rfl, Or.inr rfl, fun hb => absurd ?_ h⟩
    rw [testBit15_eq _ (g i).isLt] at hb
    exact of_decide_eq_true hb

/-- C10 witness: the high-bit clause evaluated on the group holding the
non-canonical word 0x8001 at lane 0; both backends map it to EMPTY. -/
theorem C10_witness :
    Portable.convert_special_to_empty_and_full_to_deleted gNC 0 = EMPTY
    ∧ Avx2.convert_special_to_empty_and_full_to_deleted gNC 0 = EMPTY :=
  (C10_convert_range gNC 0).2.2 (by decide)
